import Mathlib

/-!
# Verification of the `sqluser` identity store (herb-go/plugin)

A shallow embedding of `src/sqluser/sqluser.go`.  Go strings are modelled as
byte lists (`Bytes`), the four SQL tables as lists of row structures inside
`DBState`, and every data-mapper operation as a pure function from state to
state.  Database statement failures are injected through an `Oracle`
(`Nat → Option Err`), consulted at each fallible step exactly where the Go
code checks the corresponding `err`; transaction semantics (writes pending
until the single `commit`, deferred rollback on every other exit) are part of
each operation's translation.  Each operation also emits a trace of the SQL
statements it attempted, tagged with the connection handle they ran on
(`a.DB()` versus `tx`), so that claims about transaction placement are
expressible.
-/

set_option maxRecDepth 40000

/-- A Go string / byte slice: a list of byte values. -/
abbrev Bytes := List Nat

/-- ASCII string literal to bytes (all literals used here are ASCII, where
Go's UTF-8 bytes coincide with the code points). -/
def goStr (s : String) : Bytes := s.toList.map Char.toNat

/-! ## SHA-256, translated from the semantics of Go's `crypto/sha256`

`sha256.New` yields a streaming hash; `Write` appends bytes to the stream and
`Sum(nil)` returns the SHA-256 digest of everything written so far without
resetting the stream.  The compression pipeline below is the FIPS 180-4
algorithm that `crypto/sha256` implements. -/

/-- Truncation to a 32-bit word. -/
def w32 (n : Nat) : Nat := n % 4294967296

/-- Right rotation of a 32-bit word. -/
def rotr (x n : Nat) : Nat := w32 ((x >>> n) ||| (x <<< (32 - n)))

/-- SHA-256 `Ch` function (bitwise complement as xor with the all-ones word). -/
def ch (x y z : Nat) : Nat := (x &&& y) ^^^ ((x ^^^ 4294967295) &&& z)

/-- SHA-256 `Maj` function. -/
def maj (x y z : Nat) : Nat := (x &&& y) ^^^ (x &&& z) ^^^ (y &&& z)

/-- SHA-256 big sigma 0. -/
def bigS0 (x : Nat) : Nat := rotr x 2 ^^^ rotr x 13 ^^^ rotr x 22

/-- SHA-256 big sigma 1. -/
def bigS1 (x : Nat) : Nat := rotr x 6 ^^^ rotr x 11 ^^^ rotr x 25

/-- SHA-256 small sigma 0. -/
def smallS0 (x : Nat) : Nat := rotr x 7 ^^^ rotr x 18 ^^^ (x >>> 3)

/-- SHA-256 small sigma 1. -/
def smallS1 (x : Nat) : Nat := rotr x 17 ^^^ rotr x 19 ^^^ (x >>> 10)

/-- The 64 SHA-256 round constants. -/
def K64 : List Nat :=
  [1116352408, 1899447441, 3049323471, 3921009573, 961987163,
   1508970993, 2453635748, 2870763221, 3624381080, 310598401,
   607225278, 1426881987, 1925078388, 2162078206, 2614888103,
   3248222580, 3835390401, 4022224774, 264347078, 604807628,
   770255983, 1249150122, 1555081692, 1996064986, 2554220882,
   2821834349, 2952996808, 3210313671, 3336571891, 3584528711,
   113926993, 338241895, 666307205, 773529912, 1294757372,
   1396182291, 1695183700, 1986661051, 2177026350, 2456956037,
   2730485921, 2820302411, 3259730800, 3345764771, 3516065817,
   3600352804, 4094571909, 275423344, 430227734, 506948616,
   659060556, 883997877, 958139571, 1322822218, 1537002063,
   1747873779, 1955562222, 2024104815, 2227730452, 2361852424,
   2428436474, 2756734187, 3204031479, 3329325298]

/-- The SHA-256 initial hash value. -/
def H256 : List Nat :=
  [1779033703, 3144134277, 1013904242, 2773480762, 1359893119,
   2600822924, 528734635, 1541459225]

/-- Big-endian 32-bit words from bytes, four at a time. -/
def bytesToWords : Bytes → List Nat
  | b0 :: b1 :: b2 :: b3 :: rest => (((b0 * 256 + b1) * 256 + b2) * 256 + b3) :: bytesToWords rest
  | _ => []

/-- The `k` big-endian bytes of `n`. -/
def beBytes : Nat → Nat → Bytes
  | 0, _ => []
  | k + 1, n => beBytes k (n >>> 8) ++ [n % 256]

/-- SHA-256 padding: `0x80`, zeros to 56 mod 64, then the bit length as eight
big-endian bytes. -/
def padMsg (m : Bytes) : Bytes :=
  m ++ 128 :: List.replicate ((64 - (m.length + 9) % 64) % 64) 0 ++ beBytes 8 (8 * m.length)

/-- Split into 64-byte blocks (fuel-recursive so it reduces definitionally). -/
def chunk64 : Nat → Bytes → List Bytes
  | 0, _ => []
  | _ + 1, [] => []
  | fuel + 1, l => l.take 64 :: chunk64 fuel (l.drop 64)

/-- One message-schedule extension step; `acc` holds the words newest-first. -/
def extWord (acc : List Nat) : Nat :=
  w32 (smallS1 (acc.getD 1 0) + acc.getD 6 0 + smallS0 (acc.getD 14 0) + acc.getD 15 0)

/-- Extend the message schedule by `k` words (`acc` newest-first). -/
def sched : Nat → List Nat → List Nat
  | 0, acc => acc.reverse
  | k + 1, acc => sched k (extWord acc :: acc)

/-- The 64-entry message schedule of one block. -/
def blockWords (block : Bytes) : List Nat := sched 48 (bytesToWords block).reverse

/-- One SHA-256 round on the eight-word working state. -/
def rnd : List Nat → Nat × Nat → List Nat
  | [a, b, c, d, e, f, g, h], (kc, w) =>
    let t1 := w32 (h + bigS1 e + ch e f g + kc + w)
    let t2 := w32 (bigS0 a + maj a b c)
    [w32 (t1 + t2), a, b, c, w32 (d + t1), e, f, g]
  | s, _ => s

/-- SHA-256 compression of one 64-byte block into the running hash. -/
def compress (h : List Nat) (block : Bytes) : List Nat :=
  let s := (K64.zip (blockWords block)).foldl rnd h
  (h.zip s).map (fun p => w32 (p.1 + p.2))

/-- The four big-endian bytes of a 32-bit word. -/
def wordBytesBE (w : Nat) : Bytes := [(w >>> 24) % 256, (w >>> 16) % 256, (w >>> 8) % 256, w % 256]

/-- SHA-256 digest (32 bytes) of a byte string. -/
def sha256Bytes (m : Bytes) : Bytes :=
  let padded := padMsg m
  ((chunk64 padded.length padded).foldl compress H256).map wordBytesBE |>.flatten

/-- One lowercase hex digit character code. -/
def hexDigit (n : Nat) : Nat := if n < 10 then 48 + n else 87 + n

/-- Go's `hex.EncodeToString`, as bytes: two lowercase hex digits per byte. -/
def hexEncode (bs : Bytes) : Bytes := (bs.map (fun b => [hexDigit (b / 16), hexDigit (b % 16)])).flatten

/-! ## Errors, rows, database state

Errors are the distinguished sentinel values the Go code compares against
(`sql.ErrNoRows`, `member.ErrUserNotFound`, `user.ErrAccountBindExists`,
`member.ErrAccountRegisterExists`, `sqluser.ErrHashMethodNotFound`), plus
`other` for any driver or generator failure that is merely propagated. -/

inductive Err where
  | errNoRows
  | errUserNotFound
  | errAccountBindExists
  | errAccountRegisterExists
  | errHashMethodNotFound
  | other (code : Nat)
deriving DecidableEq, Repr

/-- `AccountModel` (sqluser.go 513-522): one row of the account table. -/
structure AccountModel where
  UID : Bytes
  Keyword : Bytes
  Account : Bytes
  CreatedTime : Int
deriving DecidableEq, Repr

/-- `PasswordModel` (sqluser.go 650-661): one row of the password table. -/
structure PasswordModel where
  UID : Bytes
  HashMethod : Bytes
  Salt : Bytes
  Password : Bytes
  UpdatedTime : Int
deriving DecidableEq, Repr

/-- One row of the token table: `token(uid, token, updated_time)`, the
`updated_time` column written from `time.Now().Unix()` (sqluser.go 683-704). -/
structure TokenRow where
  UID : Bytes
  Token : Bytes
  UpdatedTime : Int
deriving DecidableEq, Repr

/-- `TokenModel` (sqluser.go 766-773) as `FindAllByUID` returns it: only `UID`
and `Token` are scanned (line 730); `UpdatedTime` is declared `string` in Go
and left at its zero value. -/
structure TokenModel where
  UID : Bytes
  Token : Bytes
  UpdatedTime : Bytes
deriving DecidableEq, Repr

/-- `UserModel` (sqluser.go 882-891): one row of the user table. -/
structure UserModel where
  UID : Bytes
  CreatedTime : Int
  UpdateTIme : Int
  Status : Int
deriving DecidableEq, Repr

/-- The persisted contents of the four tables. -/
structure DBState where
  accounts : List AccountModel
  passwords : List PasswordModel
  tokens : List TokenRow
  users : List UserModel
deriving DecidableEq, Repr

/-- The empty store. -/
def emptyDB : DBState := ⟨[], [], [], []⟩

/-- Which connection a statement ran on: the shared `a.DB()` handle or the
transaction `tx` begun by the operation. -/
inductive Handle where
  | hdb
  | htx
deriving DecidableEq, Repr

/-- The statement shapes the code emits. -/
inductive StmtKind where
  | sel
  | ins
  | upd
  | del
deriving DecidableEq, Repr

/-- One attempted SQL statement, tagged with its connection handle. -/
structure Stmt where
  h : Handle
  k : StmtKind
deriving DecidableEq, Repr

/-- Failure injection for the fallible driver calls (`Begin`, `Exec`, `Scan`,
`RowsAffected`, `Commit`) of one operation, consulted in program order; `none`
means the call succeeds. -/
abbrev Oracle := Nat → Option Err

/-- The oracle under which every driver call succeeds. -/
def noFail : Oracle := fun _ => none

/-- Result of one data-mapper operation: the Go return value, the Go error,
the persisted state after the deferred rollback or the commit, and the trace
of attempted statements. -/
structure OpOut (α : Type) where
  val : α
  err : Option Err
  state : DBState
  trace : List Stmt
deriving DecidableEq, Repr

/-! ## Flags, facade, hash registry -/

/-- `FlagWithAccount` (sqluser.go 25). -/
def FlagWithAccount : Nat := 1

/-- `FlagWithPassword` (sqluser.go 27). -/
def FlagWithPassword : Nat := 2

/-- `FlagWithToken` (sqluser.go 29). -/
def FlagWithToken : Nat := 4

/-- `FlagWithUser` (sqluser.go 31). -/
def FlagWithUser : Nat := 8

/-- `UserStatusNormal` (sqluser.go 36). -/
def UserStatusNormal : Int := 0

/-- `UserStatusBanned` (sqluser.go 38). -/
def UserStatusBanned : Int := 1

/-- The `User` facade (sqluser.go 128-151): the configuration the data mappers
share.  The three generator functions are impure (`crypto/rand`, wall clock);
each operation that invokes one takes the invocation's `(string, error)`
outcome as an explicit argument instead. -/
structure User where
  Flag : Nat
  HashMethod : Bytes
  PasswordKey : Bytes
deriving DecidableEq, Repr

/-- `User.HasFlag` (sqluser.go 154-156): `u.Flag&flag != 0`. -/
def User.HasFlag (u : User) (flag : Nat) : Bool := u.Flag &&& flag != 0

/-- Go's `sha256.New()` streaming hash object: its state is the byte stream
written so far (`Write` appends; `Sum` never resets). -/
structure GoSha256 where
  written : Bytes
deriving DecidableEq, Repr

/-- `sha256.New()`. -/
def GoSha256.new : GoSha256 := ⟨[]⟩

/-- `h.Write(b)`: append `b` to the stream. -/
def GoSha256.write (h : GoSha256) (b : Bytes) : GoSha256 := ⟨h.written ++ b⟩

/-- `h.Sum(nil)`: the SHA-256 digest of everything written so far; the stream
state is unchanged. -/
def GoSha256.sum (h : GoSha256) : Bytes := sha256Bytes h.written

/-- The `"sha256"` entry of `HashFuncMap` (sqluser.go 68-75), statement for
statement: write `key+salt+password`, take `Sum(nil)`, write that digest into
the SAME stream, hex-encode `Sum(nil)` of the result. -/
def sha256HashEntry (key salt password : Bytes) : Bytes × Option Err :=
  let val := key ++ salt ++ password
  let s256 := GoSha256.new
  let s256 := s256.write val
  let val2 := s256.sum
  let s256 := s256.write val2
  (hexEncode s256.sum, none)

/-- `HashFuncMap` (sqluser.go 65-76): the process-wide registry of password
hash functions, holding the single default `"sha256"` entry. -/
def HashFuncMap (name : Bytes) : Option (Bytes → Bytes → Bytes → Bytes × Option Err) :=
  if name = goStr "sha256" then some sha256HashEntry else none

/-! ## Row lookups (the `WHERE` clauses of the emitted selects) -/

/-- `SELECT ... FROM account WHERE keyword = ? AND account = ?`, first row. -/
def findAccountRow (l : List AccountModel) (keyword account : Bytes) : Option AccountModel :=
  l.find? (fun r => r.Keyword == keyword && r.Account == account)

/-- `SELECT ... FROM password WHERE uid = ?`, first row. -/
def findPwdRow (l : List PasswordModel) (uid : Bytes) : Option PasswordModel :=
  l.find? (fun r => r.UID == uid)

/-! ## AccountDataMapper -/

namespace AccountDataMapper

/-- `AccountDataMapper.Bind` (sqluser.go 248-285).  `Begin` (oracle 0); the
existence `SELECT` runs on `a.DB()` (line 262) and its `Scan` may fail
(oracle 1); a found row aborts with `user.ErrAccountBindExists`; `Scan`
errors other than `sql.ErrNoRows` propagate; otherwise the `INSERT` runs on
`tx` (oracle 2) and `Commit` (oracle 3); every non-commit exit leaves the
deferred rollback to discard the pending writes. -/
def Bind (ora : Oracle) (s0 : DBState) (now : Int) (uid keyword account : Bytes) : OpOut Unit :=
  match ora 0 with
  | some e => ⟨(), some e, s0, []⟩
  | none =>
  let scanned : Except Err AccountModel :=
    match ora 1 with
    | some e => .error e
    | none =>
      match findAccountRow s0.accounts keyword account with
      | some r => .ok r
      | none => .error .errNoRows
  match scanned with
  | .ok _ => ⟨(), some .errAccountBindExists, s0, [⟨.hdb, .sel⟩]⟩
  | .error e =>
    if e = .errNoRows then
      match ora 2 with
      | some e2 => ⟨(), some e2, s0, [⟨.hdb, .sel⟩, ⟨.htx, .ins⟩]⟩
      | none =>
        let pending : DBState :=
          { s0 with accounts := s0.accounts ++ [⟨uid, keyword, account, now⟩] }
        match ora 3 with
        | some e3 => ⟨(), some e3, s0, [⟨.hdb, .sel⟩, ⟨.htx, .ins⟩]⟩
        | none => ⟨(), none, pending, [⟨.hdb, .sel⟩, ⟨.htx, .ins⟩]⟩
    else ⟨(), some e, s0, [⟨.hdb, .sel⟩]⟩

/-- `AccountDataMapper.FindOrInsert` (sqluser.go 290-342).  `genu` is the
`(string, error)` outcome of the one `UIDGenerater()` call (line 317); the Go
code binds its error to `err` but never tests it before `err` is overwritten
by the insert's result, so the generated string — the empty string for a
conventional generator — is inserted regardless.  The lookup `SELECT` runs on
`a.DB()` (line 304); the account `INSERT`, the optional user `INSERT`
(when `FlagWithUser` is set), and the `Commit` run on `tx`; the found path
returns the existing row's uid without committing. -/
def FindOrInsert (ora : Oracle) (u : User) (genu : Bytes × Option Err)
    (s0 : DBState) (now : Int) (keyword account : Bytes) : OpOut Bytes :=
  match ora 0 with
  | some e => ⟨[], some e, s0, []⟩
  | none =>
  let scanned : Except Err AccountModel :=
    match ora 1 with
    | some e => .error e
    | none =>
      match findAccountRow s0.accounts keyword account with
      | some r => .ok r
      | none => .error .errNoRows
  match scanned with
  | .ok r => ⟨r.UID, none, s0, [⟨.hdb, .sel⟩]⟩
  | .error e =>
    if e = .errNoRows then
      let uid := genu.1
      match ora 2 with
      | some e2 => ⟨[], some e2, s0, [⟨.hdb, .sel⟩, ⟨.htx, .ins⟩]⟩
      | none =>
        let pending : DBState :=
          { s0 with accounts := s0.accounts ++ [⟨uid, keyword, account, now⟩] }
        if u.HasFlag FlagWithUser then
          match ora 3 with
          | some e3 => ⟨[], some e3, s0, [⟨.hdb, .sel⟩, ⟨.htx, .ins⟩, ⟨.htx, .ins⟩]⟩
          | none =>
            let pending2 : DBState :=
              { pending with users := pending.users ++ [⟨uid, now, now, UserStatusNormal⟩] }
            match ora 4 with
            | some e4 => ⟨uid, some e4, s0, [⟨.hdb, .sel⟩, ⟨.htx, .ins⟩, ⟨.htx, .ins⟩]⟩
            | none => ⟨uid, none, pending2, [⟨.hdb, .sel⟩, ⟨.htx, .ins⟩, ⟨.htx, .ins⟩]⟩
        else
          match ora 4 with
          | some e4 => ⟨uid, some e4, s0, [⟨.hdb, .sel⟩, ⟨.htx, .ins⟩]⟩
          | none => ⟨uid, none, pending, [⟨.hdb, .sel⟩, ⟨.htx, .ins⟩]⟩
    else ⟨[], some e, s0, [⟨.hdb, .sel⟩]⟩

/-- `AccountDataMapper.Insert` (sqluser.go 347-394): like `Bind` but aborting
with `member.ErrAccountRegisterExists`, and also inserting a user-status row
with status `UserStatusNormal` when `FlagWithUser` is set. -/
def Insert (ora : Oracle) (u : User) (s0 : DBState) (now : Int)
    (uid keyword account : Bytes) : OpOut Unit :=
  match ora 0 with
  | some e => ⟨(), some e, s0, []⟩
  | none =>
  let scanned : Except Err AccountModel :=
    match ora 1 with
    | some e => .error e
    | none =>
      match findAccountRow s0.accounts keyword account with
      | some r => .ok r
      | none => .error .errNoRows
  match scanned with
  | .ok _ => ⟨(), some .errAccountRegisterExists, s0, [⟨.hdb, .sel⟩]⟩
  | .error e =>
    if e = .errNoRows then
      match ora 2 with
      | some e2 => ⟨(), some e2, s0, [⟨.hdb, .sel⟩, ⟨.htx, .ins⟩]⟩
      | none =>
        let pending : DBState :=
          { s0 with accounts := s0.accounts ++ [⟨uid, keyword, account, now⟩] }
        if u.HasFlag FlagWithUser then
          match ora 3 with
          | some e3 => ⟨(), some e3, s0, [⟨.hdb, .sel⟩, ⟨.htx, .ins⟩, ⟨.htx, .ins⟩]⟩
          | none =>
            let pending2 : DBState :=
              { pending with users := pending.users ++ [⟨uid, now, now, UserStatusNormal⟩] }
            match ora 4 with
            | some e4 => ⟨(), some e4, s0, [⟨.hdb, .sel⟩, ⟨.htx, .ins⟩, ⟨.htx, .ins⟩]⟩
            | none => ⟨(), none, pending2, [⟨.hdb, .sel⟩, ⟨.htx, .ins⟩, ⟨.htx, .ins⟩]⟩
        else
          match ora 4 with
          | some e4 => ⟨(), some e4, s0, [⟨.hdb, .sel⟩, ⟨.htx, .ins⟩]⟩
          | none => ⟨(), none, pending, [⟨.hdb, .sel⟩, ⟨.htx, .ins⟩]⟩
    else ⟨(), some e, s0, [⟨.hdb, .sel⟩]⟩

/-- `AccountDataMapper.Register` (sqluser.go 484-491): generate a uid (the
`genu` outcome); a generator error returns at once; otherwise delegate to
`Insert` and return the uid with its error. -/
def Register (ora : Oracle) (u : User) (genu : Bytes × Option Err)
    (s0 : DBState) (now : Int) (keyword account : Bytes) : OpOut Bytes :=
  match genu.2 with
  | some e => ⟨genu.1, some e, s0, []⟩
  | none =>
    let o := Insert ora u s0 now genu.1 keyword account
    ⟨genu.1, o.err, o.state, o.trace⟩

/-- `AccountDataMapper.Find` (sqluser.go 398-418): empty keyword or account
short-circuits to `sql.ErrNoRows` before any statement; otherwise one `SELECT`
on `a.DB()` whose scan failure is `inj`. -/
def Find (inj : Option Err) (s : DBState) (keyword account : Bytes) : OpOut AccountModel :=
  if keyword = [] ∨ account = [] then ⟨⟨[], [], [], 0⟩, some .errNoRows, s, []⟩
  else
    match inj with
    | some e => ⟨⟨[], [], [], 0⟩, some e, s, [⟨.hdb, .sel⟩]⟩
    | none =>
      match findAccountRow s.accounts keyword account with
      | some r => ⟨r, none, s, [⟨.hdb, .sel⟩]⟩
      | none => ⟨⟨[], [], [], 0⟩, some .errNoRows, s, [⟨.hdb, .sel⟩]⟩

end AccountDataMapper

/-! ## PasswordDataMapper -/

namespace PasswordDataMapper

/-- `PasswordDataMapper.Find` (sqluser.go 539-559): empty uid short-circuits
to `sql.ErrNoRows` before any statement; otherwise one `SELECT` on the DB
handle.  `result.UID = uid` is assigned before the scan (line 550), so even a
failed scan returns a model carrying `uid`. -/
def Find (inj : Option Err) (s : DBState) (uid : Bytes) : OpOut PasswordModel :=
  if uid = [] then ⟨⟨[], [], [], [], 0⟩, some .errNoRows, s, []⟩
  else
    match inj with
    | some e => ⟨⟨uid, [], [], [], 0⟩, some e, s, [⟨.hdb, .sel⟩]⟩
    | none =>
      match findPwdRow s.passwords uid with
      | some r => ⟨⟨uid, r.HashMethod, r.Salt, r.Password, r.UpdatedTime⟩, none, s, [⟨.hdb, .sel⟩]⟩
      | none => ⟨⟨uid, [], [], [], 0⟩, some .errNoRows, s, [⟨.hdb, .sel⟩]⟩

/-- `PasswordDataMapper.InsertOrUpdate` (sqluser.go 563-600): `Begin`
(oracle 0); `UPDATE ... WHERE uid = model.UID` on `tx` (oracle 1);
`RowsAffected` (oracle 2); a nonzero count commits at once (oracle 3);
otherwise `INSERT` on `tx` (oracle 3) then `Commit` (oracle 4). -/
def InsertOrUpdate (ora : Oracle) (s0 : DBState) (model : PasswordModel) : OpOut Unit :=
  match ora 0 with
  | some e => ⟨(), some e, s0, []⟩
  | none =>
  match ora 1 with
  | some e => ⟨(), some e, s0, [⟨.htx, .upd⟩]⟩
  | none =>
  let affected := (s0.passwords.filter (fun r => r.UID == model.UID)).length
  match ora 2 with
  | some e => ⟨(), some e, s0, [⟨.htx, .upd⟩]⟩
  | none =>
  if affected ≠ 0 then
    let updated : DBState :=
      { s0 with passwords := s0.passwords.map (fun r =>
          if r.UID == model.UID then
            { r with HashMethod := model.HashMethod, Salt := model.Salt,
                     Password := model.Password, UpdatedTime := model.UpdatedTime }
          else r) }
    match ora 3 with
    | some e => ⟨(), some e, s0, [⟨.htx, .upd⟩]⟩
    | none => ⟨(), none, updated, [⟨.htx, .upd⟩]⟩
  else
    match ora 3 with
    | some e => ⟨(), some e, s0, [⟨.htx, .upd⟩, ⟨.htx, .ins⟩]⟩
    | none =>
      let inserted : DBState := { s0 with passwords := s0.passwords ++ [model] }
      match ora 4 with
      | some e => ⟨(), some e, s0, [⟨.htx, .upd⟩, ⟨.htx, .ins⟩]⟩
      | none => ⟨(), none, inserted, [⟨.htx, .upd⟩, ⟨.htx, .ins⟩]⟩

/-- `PasswordDataMapper.VerifyPassword` (sqluser.go 605-622): find the row
(`sql.ErrNoRows` becomes `member.ErrUserNotFound`); resolve the row's stored
hash method in `HashFuncMap` (`nil` gives `ErrHashMethodNotFound`); recompute
the hash from the facade's `PasswordKey`, the stored salt and the submitted
password; compare byte-for-byte (`bytes.Compare == 0`). -/
def VerifyPassword (inj : Option Err) (u : User) (s : DBState) (uid password : Bytes) :
    OpOut Bool :=
  let f := Find inj s uid
  match f.err with
  | some e =>
    if e = .errNoRows then ⟨false, some .errUserNotFound, s, f.trace⟩
    else ⟨false, some e, s, f.trace⟩
  | none =>
    match HashFuncMap f.val.HashMethod with
    | none => ⟨false, some .errHashMethodNotFound, s, f.trace⟩
    | some hash =>
      let hr := hash u.PasswordKey f.val.Salt password
      match hr.2 with
      | some e => ⟨false, some e, s, f.trace⟩
      | none => ⟨hr.1 == f.val.Password, none, s, f.trace⟩

/-- `PasswordDataMapper.UpdatePassword` (sqluser.go 626-647): `saltg` is the
outcome of the one `SaltGenerater()` call; a generator error returns at once;
the facade's configured `HashMethod` must be registered; hash the password
with the fresh salt and upsert the resulting model with the current time. -/
def UpdatePassword (ora : Oracle) (u : User) (saltg : Bytes × Option Err)
    (s0 : DBState) (now : Int) (uid password : Bytes) : OpOut Unit :=
  match saltg.2 with
  | some e => ⟨(), some e, s0, []⟩
  | none =>
  match HashFuncMap u.HashMethod with
  | none => ⟨(), some .errHashMethodNotFound, s0, []⟩
  | some hash =>
    let hr := hash u.PasswordKey saltg.1 password
    match hr.2 with
    | some e => ⟨(), some e, s0, []⟩
    | none => InsertOrUpdate ora s0 ⟨uid, u.HashMethod, saltg.1, hr.1, now⟩

end PasswordDataMapper

/-! ## TokenDataMapper -/

namespace TokenDataMapper

/-- `TokenDataMapper.InsertOrUpdate` (sqluser.go 677-710): the same
attempt-update-then-insert discipline as the password upsert, on the token
table, stamping `time.Now().Unix()`. -/
def InsertOrUpdate (ora : Oracle) (s0 : DBState) (now : Int) (uid token : Bytes) : OpOut Unit :=
  match ora 0 with
  | some e => ⟨(), some e, s0, []⟩
  | none =>
  match ora 1 with
  | some e => ⟨(), some e, s0, [⟨.htx, .upd⟩]⟩
  | none =>
  let affected := (s0.tokens.filter (fun r => r.UID == uid)).length
  match ora 2 with
  | some e => ⟨(), some e, s0, [⟨.htx, .upd⟩]⟩
  | none =>
  if affected ≠ 0 then
    let updated : DBState :=
      { s0 with tokens := s0.tokens.map (fun r =>
          if r.UID == uid then { r with Token := token, UpdatedTime := now } else r) }
    match ora 3 with
    | some e => ⟨(), some e, s0, [⟨.htx, .upd⟩]⟩
    | none => ⟨(), none, updated, [⟨.htx, .upd⟩]⟩
  else
    match ora 3 with
    | some e => ⟨(), some e, s0, [⟨.htx, .upd⟩, ⟨.htx, .ins⟩]⟩
    | none =>
      let inserted : DBState := { s0 with tokens := s0.tokens ++ [⟨uid, token, now⟩] }
      match ora 4 with
      | some e => ⟨(), some e, s0, [⟨.htx, .upd⟩, ⟨.htx, .ins⟩]⟩
      | none => ⟨(), none, inserted, [⟨.htx, .upd⟩, ⟨.htx, .ins⟩]⟩

/-- `TokenDataMapper.FindAllByUID` (sqluser.go 714-737): empty uid list
returns empty without querying; otherwise one `SELECT ... WHERE uid IN (...)`
whose failure is `inj`; each row scans only `uid` and `token`. -/
def FindAllByUID (inj : Option Err) (s : DBState) (uids : List Bytes) : OpOut (List TokenModel) :=
  if uids.length = 0 then ⟨[], none, s, []⟩
  else
    match inj with
    | some e => ⟨[], some e, s, [⟨.hdb, .sel⟩]⟩
    | none =>
      ⟨(s.tokens.filter (fun r => uids.contains r.UID)).map (fun r => ⟨r.UID, r.Token, []⟩),
        none, s, [⟨.hdb, .sel⟩]⟩

/-- Go map assignment `m[k] = v` on an association list. -/
def mapSet (m : List (Bytes × Bytes)) (k v : Bytes) : List (Bytes × Bytes) :=
  if m.any (fun p => p.1 == k) then m.map (fun p => if p.1 == k then (k, v) else p)
  else m ++ [(k, v)]

/-- Go map lookup `m[k]` as an option. -/
def mapGet (m : List (Bytes × Bytes)) (k : Bytes) : Option Bytes :=
  (m.find? (fun p => p.1 == k)).map (fun p => p.2)

/-- `TokenDataMapper.Tokens` (sqluser.go 742-753): build the
`member.Tokens` map `uid -> token` from `FindAllByUID`. -/
def Tokens (inj : Option Err) (s : DBState) (uids : List Bytes) :
    OpOut (List (Bytes × Bytes)) :=
  let o := FindAllByUID inj s uids
  match o.err with
  | some e => ⟨[], some e, s, o.trace⟩
  | none => ⟨o.val.foldl (fun m v => mapSet m v.UID v.Token) [], none, s, o.trace⟩

/-- `TokenDataMapper.Revoke` (sqluser.go 757-763): `tokg` is the outcome of
the one `TokenGenerater()` call; a generator error returns `("", err)`;
otherwise upsert the new token and return it together with the upsert's
error. -/
def Revoke (ora : Oracle) (tokg : Bytes × Option Err) (s0 : DBState) (now : Int)
    (uid : Bytes) : OpOut Bytes :=
  match tokg.2 with
  | some e => ⟨[], some e, s0, []⟩
  | none =>
    let o := InsertOrUpdate ora s0 now uid tokg.1
    ⟨tokg.1, o.err, o.state, o.trace⟩

end TokenDataMapper

/-! ## UserDataMapper -/

namespace UserDataMapper

/-- `UserDataMapper.InsertOrUpdate` (sqluser.go 817-851): the same
attempt-update-then-insert discipline on the user table with a status
value. -/
def InsertOrUpdate (ora : Oracle) (s0 : DBState) (now : Int) (uid : Bytes) (status : Int) :
    OpOut Unit :=
  match ora 0 with
  | some e => ⟨(), some e, s0, []⟩
  | none =>
  match ora 1 with
  | some e => ⟨(), some e, s0, [⟨.htx, .upd⟩]⟩
  | none =>
  let affected := (s0.users.filter (fun r => r.UID == uid)).length
  match ora 2 with
  | some e => ⟨(), some e, s0, [⟨.htx, .upd⟩]⟩
  | none =>
  if affected ≠ 0 then
    let updated : DBState :=
      { s0 with users := s0.users.map (fun r =>
          if r.UID == uid then { r with Status := status, UpdateTIme := now } else r) }
    match ora 3 with
    | some e => ⟨(), some e, s0, [⟨.htx, .upd⟩]⟩
    | none => ⟨(), none, updated, [⟨.htx, .upd⟩]⟩
  else
    match ora 3 with
    | some e => ⟨(), some e, s0, [⟨.htx, .upd⟩, ⟨.htx, .ins⟩]⟩
    | none =>
      let inserted : DBState := { s0 with users := s0.users ++ [⟨uid, now, now, status⟩] }
      match ora 4 with
      | some e => ⟨(), some e, s0, [⟨.htx, .upd⟩, ⟨.htx, .ins⟩]⟩
      | none => ⟨(), none, inserted, [⟨.htx, .upd⟩, ⟨.htx, .ins⟩]⟩

end UserDataMapper

/-! ## Derived shapes used in the statements -/

/-- The password-table contents an `InsertOrUpdate` leaves behind when every
driver call succeeds: update every row keyed by the model's uid, insert the
model only when zero rows were affected. -/
def upsertPwdList (l : List PasswordModel) (m : PasswordModel) : List PasswordModel :=
  if (l.filter (fun r => r.UID == m.UID)).length ≠ 0 then
    l.map (fun r =>
      if r.UID == m.UID then
        { r with HashMethod := m.HashMethod, Salt := m.Salt,
                 Password := m.Password, UpdatedTime := m.UpdatedTime }
      else r)
  else l ++ [m]

/-- The token-table contents a successful token `InsertOrUpdate` leaves. -/
def upsertTokList (l : List TokenRow) (uid token : Bytes) (now : Int) : List TokenRow :=
  if (l.filter (fun r => r.UID == uid)).length ≠ 0 then
    l.map (fun r => if r.UID == uid then { r with Token := token, UpdatedTime := now } else r)
  else l ++ [⟨uid, token, now⟩]

/-- The user-table contents a successful user `InsertOrUpdate` leaves. -/
def upsertUsrList (l : List UserModel) (uid : Bytes) (status : Int) (now : Int) : List UserModel :=
  if (l.filter (fun r => r.UID == uid)).length ≠ 0 then
    l.map (fun r => if r.UID == uid then { r with Status := status, UpdateTIme := now } else r)
  else l ++ [⟨uid, now, now, status⟩]

/-- Number of account rows carrying a given `(keyword, account)` pair. -/
def accountPairCount (s : DBState) (keyword account : Bytes) : Nat :=
  (s.accounts.filter (fun r => r.Keyword == keyword && r.Account == account)).length

/-- Number of password rows keyed by `uid`. -/
def pwdCount (s : DBState) (uid : Bytes) : Nat :=
  (s.passwords.filter (fun r => r.UID == uid)).length

/-- Number of token rows keyed by `uid`. -/
def tokCount (s : DBState) (uid : Bytes) : Nat :=
  (s.tokens.filter (fun r => r.UID == uid)).length

/-- Number of user rows keyed by `uid`. -/
def usrCount (s : DBState) (uid : Bytes) : Nat :=
  (s.users.filter (fun r => r.UID == uid)).length

/-- Rendering of the spec's "the check and the insert performed inside one
transaction": every statement the operation attempted ran on the transaction
handle. -/
def allStmtsInTx (tr : List Stmt) : Bool := tr.all (fun st => st.h == Handle.htx)

/-- Rendering of the spec's formula for the default hash entry:
`hex(SHA256(SHA256(key+salt+password)))`, the inner digest rehashed on a
fresh hash. -/
def specDoubleSha256 (key salt password : Bytes) : Bytes :=
  hexEncode (sha256Bytes (sha256Bytes (key ++ salt ++ password)))

/-- The at-most-one-row-per-uid invariant of the three upsert-managed
tables. -/
def atMostOnePerUID (s : DBState) : Prop :=
  ∀ uid : Bytes, pwdCount s uid ≤ 1 ∧ tokCount s uid ≤ 1 ∧ usrCount s uid ≤ 1

/-- One upsert invocation, with its own failure oracle and arguments. -/
inductive UpsertCall where
  | pwd (ora : Oracle) (m : PasswordModel)
  | tok (ora : Oracle) (now : Int) (uid token : Bytes)
  | usr (ora : Oracle) (now : Int) (uid : Bytes) (status : Int)

/-- Run one upsert invocation against the store. -/
def applyUpsert (s : DBState) : UpsertCall → DBState
  | .pwd ora m => (PasswordDataMapper.InsertOrUpdate ora s m).state
  | .tok ora now uid token => (TokenDataMapper.InsertOrUpdate ora s now uid token).state
  | .usr ora now uid status => (UserDataMapper.InsertOrUpdate ora s now uid status).state

/-! ## Characterization lemmas -/

/-- A password upsert leaves the attempt-update-then-insert image exactly when
it reports no error, and the untouched store otherwise (deferred rollback). -/
theorem pwdUpsert_state_spec (ora : Oracle) (s : DBState) (m : PasswordModel) :
    (PasswordDataMapper.InsertOrUpdate ora s m).state =
      if (PasswordDataMapper.InsertOrUpdate ora s m).err = none then
        { s with passwords := upsertPwdList s.passwords m }
      else s := by
  unfold PasswordDataMapper.InsertOrUpdate
  cases h0 : ora 0 with
  | some e => simp
  | none =>
  cases h1 : ora 1 with
  | some e => simp
  | none =>
  cases h2 : ora 2 with
  | some e => simp
  | none =>
  dsimp only
  by_cases hc : (s.passwords.filter (fun r => r.UID == m.UID)).length ≠ 0
  · rw [if_pos hc]
    cases h3 : ora 3 with
    | some e => simp
    | none => simp only [upsertPwdList]; rw [if_pos hc]; simp
  · rw [if_neg hc]
    cases h3 : ora 3 with
    | some e => simp
    | none =>
      cases h4 : ora 4 with
      | some e => simp
      | none => simp only [upsertPwdList]; rw [if_neg hc]; simp

/-- A token upsert: same discipline on the token table. -/
theorem tokUpsert_state_spec (ora : Oracle) (s : DBState) (now : Int) (uid token : Bytes) :
    (TokenDataMapper.InsertOrUpdate ora s now uid token).state =
      if (TokenDataMapper.InsertOrUpdate ora s now uid token).err = none then
        { s with tokens := upsertTokList s.tokens uid token now }
      else s := by
  unfold TokenDataMapper.InsertOrUpdate
  cases h0 : ora 0 with
  | some e => simp
  | none =>
  cases h1 : ora 1 with
  | some e => simp
  | none =>
  cases h2 : ora 2 with
  | some e => simp
  | none =>
  dsimp only
  by_cases hc : (s.tokens.filter (fun r => r.UID == uid)).length ≠ 0
  · rw [if_pos hc]
    cases h3 : ora 3 with
    | some e => simp
    | none => simp only [upsertTokList]; rw [if_pos hc]; simp
  · rw [if_neg hc]
    cases h3 : ora 3 with
    | some e => simp
    | none =>
      cases h4 : ora 4 with
      | some e => simp
      | none => simp only [upsertTokList]; rw [if_neg hc]; simp

/-- A user-status upsert: same discipline on the user table. -/
theorem usrUpsert_state_spec (ora : Oracle) (s : DBState) (now : Int) (uid : Bytes)
    (status : Int) :
    (UserDataMapper.InsertOrUpdate ora s now uid status).state =
      if (UserDataMapper.InsertOrUpdate ora s now uid status).err = none then
        { s with users := upsertUsrList s.users uid status now }
      else s := by
  unfold UserDataMapper.InsertOrUpdate
  cases h0 : ora 0 with
  | some e => simp
  | none =>
  cases h1 : ora 1 with
  | some e => simp
  | none =>
  cases h2 : ora 2 with
  | some e => simp
  | none =>
  dsimp only
  by_cases hc : (s.users.filter (fun r => r.UID == uid)).length ≠ 0
  · rw [if_pos hc]
    cases h3 : ora 3 with
    | some e => simp
    | none => simp only [upsertUsrList]; rw [if_pos hc]; simp
  · rw [if_neg hc]
    cases h3 : ora 3 with
    | some e => simp
    | none =>
      cases h4 : ora 4 with
      | some e => simp
      | none => simp only [upsertUsrList]; rw [if_neg hc]; simp

/-- Updating password rows in place never changes their uid, so the per-uid
row count survives the update branch; the insert branch only fires when the
uid had no row. -/
theorem count_upsertPwdList (l : List PasswordModel) (m : PasswordModel) (u : Bytes)
    (h : (l.filter (fun r => r.UID == u)).length ≤ 1) :
    ((upsertPwdList l m).filter (fun r => r.UID == u)).length ≤ 1 := by
  unfold upsertPwdList
  split
  next hne =>
    rw [List.filter_map, List.length_map]
    have heq : List.filter
        ((fun r => r.UID == u) ∘ (fun r =>
          if r.UID == m.UID then
            { r with HashMethod := m.HashMethod, Salt := m.Salt,
                     Password := m.Password, UpdatedTime := m.UpdatedTime }
          else r)) l = List.filter (fun r => r.UID == u) l := by
      apply List.filter_congr
      intro r _
      by_cases hr : r.UID = m.UID <;> simp [hr]
    rw [heq]; exact h
  next hz =>
    have hzero : (l.filter (fun r => r.UID == m.UID)).length = 0 := by omega
    rw [List.filter_append, List.length_append]
    by_cases hm : (m.UID == u) = true
    · have hmu : m.UID = u := by simpa using hm
      have h0 : (l.filter (fun r => r.UID == u)).length = 0 := by rw [← hmu]; exact hzero
      simp [List.filter, hm, h0]
    · simp [List.filter, hm, Nat.add_zero]
      simpa using h

/-- Same per-uid count preservation for the token upsert. -/
theorem count_upsertTokList (l : List TokenRow) (uid token : Bytes) (now : Int) (u : Bytes)
    (h : (l.filter (fun r => r.UID == u)).length ≤ 1) :
    ((upsertTokList l uid token now).filter (fun r => r.UID == u)).length ≤ 1 := by
  unfold upsertTokList
  split
  next hne =>
    rw [List.filter_map, List.length_map]
    have heq : List.filter
        ((fun r => r.UID == u) ∘ (fun r =>
          if r.UID == uid then { r with Token := token, UpdatedTime := now } else r)) l =
        List.filter (fun r => r.UID == u) l := by
      apply List.filter_congr
      intro r _
      by_cases hr : r.UID = uid <;> simp [hr]
    rw [heq]; exact h
  next hz =>
    have hzero : (l.filter (fun r => r.UID == uid)).length = 0 := by omega
    rw [List.filter_append, List.length_append]
    by_cases hm : (uid == u) = true
    · have hmu : uid = u := by simpa using hm
      have h0 : (l.filter (fun r => r.UID == u)).length = 0 := by rw [← hmu]; exact hzero
      simp [List.filter, hm, h0]
    · simp [List.filter, hm, Nat.add_zero]
      simpa using h

/-- Same per-uid count preservation for the user-status upsert. -/
theorem count_upsertUsrList (l : List UserModel) (uid : Bytes) (status : Int) (now : Int)
    (u : Bytes) (h : (l.filter (fun r => r.UID == u)).length ≤ 1) :
    ((upsertUsrList l uid status now).filter (fun r => r.UID == u)).length ≤ 1 := by
  unfold upsertUsrList
  split
  next hne =>
    rw [List.filter_map, List.length_map]
    have heq : List.filter
        ((fun r => r.UID == u) ∘ (fun r =>
          if r.UID == uid then { r with Status := status, UpdateTIme := now } else r)) l =
        List.filter (fun r => r.UID == u) l := by
      apply List.filter_congr
      intro r _
      by_cases hr : r.UID = uid <;> simp [hr]
    rw [heq]; exact h
  next hz =>
    have hzero : (l.filter (fun r => r.UID == uid)).length = 0 := by omega
    rw [List.filter_append, List.length_append]
    by_cases hm : (uid == u) = true
    · have hmu : uid = u := by simpa using hm
      have h0 : (l.filter (fun r => r.UID == u)).length = 0 := by rw [← hmu]; exact hzero
      simp [List.filter, hm, h0]
    · simp [List.filter, hm, Nat.add_zero]
      simpa using h

/-- After a password upsert for `m`, the first row keyed by `m.UID` carries
exactly `m`'s hash method, salt, password and timestamp. -/
theorem findPwdRow_upsertPwdList (l : List PasswordModel) (m : PasswordModel) :
    findPwdRow (upsertPwdList l m) m.UID =
      some ⟨m.UID, m.HashMethod, m.Salt, m.Password, m.UpdatedTime⟩ := by
  unfold findPwdRow upsertPwdList
  split
  next hne =>
    rw [List.find?_map]
    have hpf : ((fun (r : PasswordModel) => r.UID == m.UID) ∘ (fun (r : PasswordModel) =>
        if r.UID == m.UID then
          { r with HashMethod := m.HashMethod, Salt := m.Salt,
                   Password := m.Password, UpdatedTime := m.UpdatedTime }
        else r)) = fun r => r.UID == m.UID := by
      funext r
      by_cases hr : r.UID = m.UID <;> simp [hr]
    rw [hpf]
    have hne' : l.filter (fun r => r.UID == m.UID) ≠ [] := by
      intro hnil
      rw [hnil] at hne
      simp at hne
    obtain ⟨x, hx⟩ := List.exists_mem_of_ne_nil _ hne'
    have hxl := (List.mem_filter.mp hx).1
    have hpx := (List.mem_filter.mp hx).2
    have hsome : (l.find? fun r => r.UID == m.UID).isSome := by
      rw [List.find?_isSome]
      exact ⟨x, hxl, hpx⟩
    obtain ⟨r0, hr0⟩ := Option.isSome_iff_exists.mp hsome
    have hp0 := List.find?_some hr0
    have hp0' : r0.UID = m.UID := by simpa using hp0
    rw [hr0]
    simp [hp0']
  next hz =>
    have hzero : (l.filter (fun r => r.UID == m.UID)).length = 0 := by omega
    have hnil : l.filter (fun r => r.UID == m.UID) = [] := List.length_eq_zero.mp hzero
    have hnone : l.find? (fun r => r.UID == m.UID) = none := by
      rw [List.find?_eq_none]
      intro x hx hpx
      have : x ∈ l.filter (fun r => r.UID == m.UID) := List.mem_filter.mpr ⟨hx, hpx⟩
      rw [hnil] at this
      exact absurd this (List.not_mem_nil x)
    rw [List.find?_append, hnone]
    simp

/-- After a token upsert on a table holding at most one row for `uid`, the
rows keyed by `uid` are exactly the freshly written one. -/
theorem filter_upsertTokList (l : List TokenRow) (uid token : Bytes) (now : Int)
    (h : (l.filter (fun r => r.UID == uid)).length ≤ 1) :
    (upsertTokList l uid token now).filter (fun r => r.UID == uid) = [⟨uid, token, now⟩] := by
  unfold upsertTokList
  split
  next hne =>
    rw [List.filter_map]
    have hpf : ((fun (r : TokenRow) => r.UID == uid) ∘ (fun (r : TokenRow) =>
        if r.UID == uid then { r with Token := token, UpdatedTime := now } else r)) =
        fun r => r.UID == uid := by
      funext r
      by_cases hr : r.UID = uid <;> simp [hr]
    rw [hpf]
    rcases hfl : l.filter (fun r => r.UID == uid) with _ | ⟨r0, rest⟩
    · rw [hfl] at hne
      simp at hne
    · rcases rest with _ | ⟨r1, rest2⟩
      · have hmem : r0 ∈ l.filter (fun r => r.UID == uid) := by
          rw [hfl]
          exact List.mem_cons_self r0 []
        have hp0 : r0.UID = uid := by simpa using (List.mem_filter.mp hmem).2
        rw [hfl]
        simp [hp0]
      · rw [hfl] at h
        simp at h
  next hz =>
    have hzero : (l.filter (fun r => r.UID == uid)).length = 0 := by omega
    have hnil : l.filter (fun r => r.UID == uid) = [] := List.length_eq_zero.mp hzero
    rw [List.filter_append, hnil]
    simp

/-- `Bind` commits exactly the one appended account row when it reports no
error, and leaves the store untouched otherwise. -/
theorem bind_state_spec (ora : Oracle) (s : DBState) (now : Int) (uid keyword account : Bytes) :
    (AccountDataMapper.Bind ora s now uid keyword account).state =
      if (AccountDataMapper.Bind ora s now uid keyword account).err = none then
        { s with accounts := s.accounts ++ [⟨uid, keyword, account, now⟩] }
      else s := by
  unfold AccountDataMapper.Bind
  cases h0 : ora 0 with
  | some e => simp
  | none =>
  dsimp only
  cases h1 : ora 1 with
  | some e =>
    dsimp only
    by_cases he : e = Err.errNoRows
    · rw [if_pos he]
      cases h2 : ora 2 with
      | some e2 => simp
      | none =>
        cases h3 : ora 3 with
        | some e3 => simp
        | none => simp
    · rw [if_neg he]
      simp
  | none =>
    cases hfind : findAccountRow s.accounts keyword account with
    | some r => simp
    | none =>
      dsimp only
      rw [if_pos rfl]
      cases h2 : ora 2 with
      | some e2 => simp
      | none =>
        cases h3 : ora 3 with
        | some e3 => simp
        | none => simp

/-- A `FindOrInsert` that reports an error has not committed anything. -/
theorem findOrInsert_err_state (ora : Oracle) (u : User) (genu : Bytes × Option Err)
    (s : DBState) (now : Int) (keyword account : Bytes) (e : Err) :
    (AccountDataMapper.FindOrInsert ora u genu s now keyword account).err = some e →
      (AccountDataMapper.FindOrInsert ora u genu s now keyword account).state = s := by
  unfold AccountDataMapper.FindOrInsert
  cases h0 : ora 0 with
  | some e0 => intro _; rfl
  | none =>
  dsimp only
  cases h1 : ora 1 with
  | some e1 =>
    dsimp only
    by_cases he : e1 = Err.errNoRows
    · rw [if_pos he]
      cases h2 : ora 2 with
      | some e2 => intro _; rfl
      | none =>
        dsimp only
        by_cases hf : u.HasFlag FlagWithUser = true
        · rw [if_pos hf]
          cases h3 : ora 3 with
          | some e3 => intro _; rfl
          | none =>
            cases h4 : ora 4 with
            | some e4 => intro _; rfl
            | none => intro hcon; simp at hcon
        · rw [if_neg hf]
          cases h4 : ora 4 with
          | some e4 => intro _; rfl
          | none => intro hcon; simp at hcon
    · rw [if_neg he]
      intro _; rfl
  | none =>
    cases hfind : findAccountRow s.accounts keyword account with
    | some r => intro hcon; simp at hcon
    | none =>
      dsimp only
      rw [if_pos rfl]
      cases h2 : ora 2 with
      | some e2 => intro _; rfl
      | none =>
        dsimp only
        by_cases hf : u.HasFlag FlagWithUser = true
        · rw [if_pos hf]
          cases h3 : ora 3 with
          | some e3 => intro _; rfl
          | none =>
            cases h4 : ora 4 with
            | some e4 => intro _; rfl
            | none => intro hcon; simp at hcon
        · rw [if_neg hf]
          cases h4 : ora 4 with
          | some e4 => intro _; rfl
          | none => intro hcon; simp at hcon

/-- When the pair is present and the driver calls preceding the scan succeed,
`FindOrInsert` returns the existing row's uid without committing. -/
theorem findOrInsert_found (ora : Oracle) (u : User) (genu : Bytes × Option Err)
    (s : DBState) (now : Int) (keyword account : Bytes) (r : AccountModel)
    (h0 : ora 0 = none) (h1 : ora 1 = none)
    (hfind : findAccountRow s.accounts keyword account = some r) :
    AccountDataMapper.FindOrInsert ora u genu s now keyword account =
      ⟨r.UID, none, s, [⟨.hdb, .sel⟩]⟩ := by
  unfold AccountDataMapper.FindOrInsert
  rw [h0, h1, hfind]

/-- When no pair is present, a `FindOrInsert` that reports no error commits
exactly the generated-uid account row (plus the user-status row when
`FlagWithUser` is set) and returns the generated uid. -/
theorem findOrInsert_insert_spec (ora : Oracle) (u : User) (genu : Bytes × Option Err)
    (s : DBState) (now : Int) (keyword account : Bytes)
    (hnone : findAccountRow s.accounts keyword account = none) :
    (AccountDataMapper.FindOrInsert ora u genu s now keyword account).err = none →
      (AccountDataMapper.FindOrInsert ora u genu s now keyword account).val = genu.1 ∧
      (AccountDataMapper.FindOrInsert ora u genu s now keyword account).state =
        (if u.HasFlag FlagWithUser then
          { s with accounts := s.accounts ++ [⟨genu.1, keyword, account, now⟩],
                   users := s.users ++ [⟨genu.1, now, now, UserStatusNormal⟩] }
         else { s with accounts := s.accounts ++ [⟨genu.1, keyword, account, now⟩] }) := by
  unfold AccountDataMapper.FindOrInsert
  cases h0 : ora 0 with
  | some e0 => intro hcon; simp at hcon
  | none =>
  dsimp only
  cases h1 : ora 1 with
  | some e1 =>
    dsimp only
    by_cases he : e1 = Err.errNoRows
    · rw [if_pos he]
      cases h2 : ora 2 with
      | some e2 => intro hcon; simp at hcon
      | none =>
        dsimp only
        by_cases hf : u.HasFlag FlagWithUser = true
        · rw [if_pos hf]
          cases h3 : ora 3 with
          | some e3 => intro hcon; simp at hcon
          | none =>
            cases h4 : ora 4 with
            | some e4 => intro hcon; simp at hcon
            | none => intro _; rw [if_pos hf]; exact ⟨rfl, rfl⟩
        · rw [if_neg hf]
          cases h4 : ora 4 with
          | some e4 => intro hcon; simp at hcon
          | none => intro _; rw [if_neg hf]; exact ⟨rfl, rfl⟩
    · rw [if_neg he]
      intro hcon; simp at hcon
  | none =>
    rw [hnone]
    dsimp only
    rw [if_pos rfl]
    cases h2 : ora 2 with
    | some e2 => intro hcon; simp at hcon
    | none =>
      dsimp only
      by_cases hf : u.HasFlag FlagWithUser = true
      · rw [if_pos hf]
        cases h3 : ora 3 with
        | some e3 => intro hcon; simp at hcon
        | none =>
          cases h4 : ora 4 with
          | some e4 => intro hcon; simp at hcon
          | none => intro _; rw [if_pos hf]; exact ⟨rfl, rfl⟩
      · rw [if_neg hf]
        cases h4 : ora 4 with
        | some e4 => intro hcon; simp at hcon
        | none => intro _; rw [if_neg hf]; exact ⟨rfl, rfl⟩

/-- An `Insert` that reports an error has not committed anything. -/
theorem insert_err_state (ora : Oracle) (u : User) (s : DBState) (now : Int)
    (uid keyword account : Bytes) (e : Err) :
    (AccountDataMapper.Insert ora u s now uid keyword account).err = some e →
      (AccountDataMapper.Insert ora u s now uid keyword account).state = s := by
  unfold AccountDataMapper.Insert
  cases h0 : ora 0 with
  | some e0 => intro _; rfl
  | none =>
  dsimp only
  cases h1 : ora 1 with
  | some e1 =>
    dsimp only
    by_cases he : e1 = Err.errNoRows
    · rw [if_pos he]
      cases h2 : ora 2 with
      | some e2 => intro _; rfl
      | none =>
        dsimp only
        by_cases hf : u.HasFlag FlagWithUser = true
        · rw [if_pos hf]
          cases h3 : ora 3 with
          | some e3 => intro _; rfl
          | none =>
            cases h4 : ora 4 with
            | some e4 => intro _; rfl
            | none => intro hcon; simp at hcon
        · rw [if_neg hf]
          cases h4 : ora 4 with
          | some e4 => intro _; rfl
          | none => intro hcon; simp at hcon
    · rw [if_neg he]
      intro _; rfl
  | none =>
    cases hfind : findAccountRow s.accounts keyword account with
    | some r => intro _; rfl
    | none =>
      dsimp only
      rw [if_pos rfl]
      cases h2 : ora 2 with
      | some e2 => intro _; rfl
      | none =>
        dsimp only
        by_cases hf : u.HasFlag FlagWithUser = true
        · rw [if_pos hf]
          cases h3 : ora 3 with
          | some e3 => intro _; rfl
          | none =>
            cases h4 : ora 4 with
            | some e4 => intro _; rfl
            | none => intro hcon; simp at hcon
        · rw [if_neg hf]
          cases h4 : ora 4 with
          | some e4 => intro _; rfl
          | none => intro hcon; simp at hcon

/-- A `Register` that reports an error has not committed anything. -/
theorem register_err_state (ora : Oracle) (u : User) (genu : Bytes × Option Err)
    (s : DBState) (now : Int) (keyword account : Bytes) (e : Err) :
    (AccountDataMapper.Register ora u genu s now keyword account).err = some e →
      (AccountDataMapper.Register ora u genu s now keyword account).state = s := by
  unfold AccountDataMapper.Register
  cases hg : genu.2 with
  | some eg => intro _; rfl
  | none =>
    dsimp only
    exact insert_err_state ora u s now genu.1 keyword account e

/-! ## SHA-256 sanity vectors -/

/-- FIPS 180-4 test vector: SHA-256 of the empty string. -/
theorem sha256_empty_vector :
    hexEncode (sha256Bytes []) =
      goStr "e3b0c44298fc1c149afbf4c8996fb92427ae41e4649b934ca495991b7852b855" := by decide

/-- FIPS 180-4 test vector: SHA-256 of `"abc"`. -/
theorem sha256_abc_vector :
    hexEncode (sha256Bytes (goStr "abc")) =
      goStr "ba7816bf8f01cfea414140de5dae2223b00361a396177a9cb410ff61f20015ad" := by decide

/-! ## Claims -/

/-- **C1 (counterexample).** The claim states that the registered `"sha256"`
strategy computes `hex(SHA256(SHA256(key+salt+password)))`.  At
`key = "a"`, `salt = ""`, `password = ""` the registered entry disagrees with
that formula: Go's `Sum` appends to the running stream, so the second round
hashes the message with its digest appended, not the digest alone. -/
theorem c1_counterexample :
    HashFuncMap (goStr "sha256") = some sha256HashEntry ∧
    (sha256HashEntry (goStr "a") [] []).1 ≠ specDoubleSha256 (goStr "a") [] [] :=
  ⟨rfl, by decide⟩

/-- **C1 (amended).** For every key, salt and password, the registered
`"sha256"` strategy returns `hex(SHA256(m ++ SHA256(m)))` as bytes, where
`m = key + salt + password`, and never errors: the inner digest is written
into the same running hash, so the outer round digests the message followed
by the inner digest. -/
theorem c1_amended (key salt password : Bytes) :
    HashFuncMap (goStr "sha256") = some sha256HashEntry ∧
    sha256HashEntry key salt password =
      (hexEncode (sha256Bytes ((key ++ salt ++ password) ++
        sha256Bytes (key ++ salt ++ password))), none) :=
  ⟨rfl, rfl⟩

/-- **C9.** `AccountDataMapper.Find` with an empty keyword or account name,
and `PasswordDataMapper.Find` with an empty uid, return `sql.ErrNoRows`
without emitting any statement and without touching the store. -/
theorem c9_empty_key_short_circuit (inj : Option Err) (s : DBState)
    (keyword account uid : Bytes) (hka : keyword = [] ∨ account = []) (hu : uid = []) :
    (AccountDataMapper.Find inj s keyword account).err = some .errNoRows ∧
    (AccountDataMapper.Find inj s keyword account).trace = [] ∧
    (AccountDataMapper.Find inj s keyword account).state = s ∧
    (PasswordDataMapper.Find inj s uid).err = some .errNoRows ∧
    (PasswordDataMapper.Find inj s uid).trace = [] ∧
    (PasswordDataMapper.Find inj s uid).state = s := by
  subst hu
  unfold AccountDataMapper.Find PasswordDataMapper.Find
  rcases hka with h | h <;> subst h <;> simp

/-- Witness for C9 at concrete inputs. -/
theorem c9_witness :
    (AccountDataMapper.Find none emptyDB [] (goStr "a")).err = some .errNoRows ∧
    (AccountDataMapper.Find none emptyDB [] (goStr "a")).trace = [] ∧
    (AccountDataMapper.Find none emptyDB [] (goStr "a")).state = emptyDB ∧
    (PasswordDataMapper.Find none emptyDB []).err = some .errNoRows ∧
    (PasswordDataMapper.Find none emptyDB []).trace = [] ∧
    (PasswordDataMapper.Find none emptyDB []).state = emptyDB :=
  c9_empty_key_short_circuit none emptyDB [] (goStr "a") [] (Or.inl rfl) rfl

/-- **C10.** When no account matches and the uid generator call fails —
returning the conventional empty string alongside its error — `FindOrInsert`
discards the error: on successful commit it returns the empty uid with a nil
error, having inserted an account row with empty uid (plus a user-status row
when `FlagWithUser` is set). -/
theorem c10_uid_generator_error_swallowed (ora : Oracle) (u : User) (e : Err) (s : DBState)
    (now : Int) (keyword account : Bytes)
    (hnone : findAccountRow s.accounts keyword account = none)
    (hok : (AccountDataMapper.FindOrInsert ora u ([], some e) s now keyword account).err = none) :
    (AccountDataMapper.FindOrInsert ora u ([], some e) s now keyword account).val = [] ∧
    (AccountDataMapper.FindOrInsert ora u ([], some e) s now keyword account).state =
      (if u.HasFlag FlagWithUser then
        { s with accounts := s.accounts ++ [⟨[], keyword, account, now⟩],
                 users := s.users ++ [⟨[], now, now, UserStatusNormal⟩] }
       else { s with accounts := s.accounts ++ [⟨[], keyword, account, now⟩] }) :=
  findOrInsert_insert_spec ora u ([], some e) s now keyword account hnone hok

/-- Witness for C10: a failing generator on an empty store, with the user
module enabled. -/
theorem c10_witness :
    (AccountDataMapper.FindOrInsert noFail ⟨9, goStr "sha256", []⟩ ([], some (.other 1))
        emptyDB 5 (goStr "email") (goStr "a@b")).val = [] ∧
    (AccountDataMapper.FindOrInsert noFail ⟨9, goStr "sha256", []⟩ ([], some (.other 1))
        emptyDB 5 (goStr "email") (goStr "a@b")).state =
      (if (User.mk 9 (goStr "sha256") []).HasFlag FlagWithUser then
        { emptyDB with accounts := [⟨[], goStr "email", goStr "a@b", 5⟩],
                       users := [⟨[], 5, 5, UserStatusNormal⟩] }
       else { emptyDB with accounts := [⟨[], goStr "email", goStr "a@b", 5⟩] }) :=
  c10_uid_generator_error_swallowed noFail ⟨9, goStr "sha256", []⟩ (.other 1) emptyDB 5
    (goStr "email") (goStr "a@b") rfl rfl

/-- **C7.** Every multi-statement mutation that reports an error — whichever
driver call failed and whatever the arguments — leaves the persisted store
exactly as it was: only the single success path reaches `commit`. -/
theorem c7_error_leaves_store_unchanged (ora : Oracle) (u : User)
    (genu : Bytes × Option Err) (s : DBState) (now : Int)
    (uid keyword account token : Bytes) (m : PasswordModel) (status : Int) (e : Err) :
    ((AccountDataMapper.Bind ora s now uid keyword account).err = some e →
      (AccountDataMapper.Bind ora s now uid keyword account).state = s) ∧
    ((AccountDataMapper.Insert ora u s now uid keyword account).err = some e →
      (AccountDataMapper.Insert ora u s now uid keyword account).state = s) ∧
    ((AccountDataMapper.Register ora u genu s now keyword account).err = some e →
      (AccountDataMapper.Register ora u genu s now keyword account).state = s) ∧
    ((AccountDataMapper.FindOrInsert ora u genu s now keyword account).err = some e →
      (AccountDataMapper.FindOrInsert ora u genu s now keyword account).state = s) ∧
    ((PasswordDataMapper.InsertOrUpdate ora s m).err = some e →
      (PasswordDataMapper.InsertOrUpdate ora s m).state = s) ∧
    ((TokenDataMapper.InsertOrUpdate ora s now uid token).err = some e →
      (TokenDataMapper.InsertOrUpdate ora s now uid token).state = s) ∧
    ((UserDataMapper.InsertOrUpdate ora s now uid status).err = some e →
      (UserDataMapper.InsertOrUpdate ora s now uid status).state = s) := by
  refine ⟨?_, insert_err_state ora u s now uid keyword account e,
    register_err_state ora u genu s now keyword account e,
    findOrInsert_err_state ora u genu s now keyword account e, ?_, ?_, ?_⟩
  · intro h
    rw [bind_state_spec, h]
    simp
  · intro h
    rw [pwdUpsert_state_spec, h]
    simp
  · intro h
    rw [tokUpsert_state_spec, h]
    simp
  · intro h
    rw [usrUpsert_state_spec, h]
    simp

/-- Witness for C7: every driver call fails at `Begin`, and every operation
leaves the empty store empty. -/
theorem c7_witness :
    ((AccountDataMapper.Bind (fun _ => some (.other 7)) emptyDB 0 (goStr "u") (goStr "k")
        (goStr "a")).state = emptyDB) ∧
    ((AccountDataMapper.Insert (fun _ => some (.other 7)) ⟨9, goStr "sha256", []⟩ emptyDB 0
        (goStr "u") (goStr "k") (goStr "a")).state = emptyDB) ∧
    ((AccountDataMapper.Register (fun _ => some (.other 7)) ⟨9, goStr "sha256", []⟩
        (goStr "u", none) emptyDB 0 (goStr "k") (goStr "a")).state = emptyDB) ∧
    ((AccountDataMapper.FindOrInsert (fun _ => some (.other 7)) ⟨9, goStr "sha256", []⟩
        (goStr "u", none) emptyDB 0 (goStr "k") (goStr "a")).state = emptyDB) ∧
    ((PasswordDataMapper.InsertOrUpdate (fun _ => some (.other 7)) emptyDB
        ⟨goStr "u", goStr "sha256", [], [], 0⟩).state = emptyDB) ∧
    ((TokenDataMapper.InsertOrUpdate (fun _ => some (.other 7)) emptyDB 0 (goStr "u")
        (goStr "t")).state = emptyDB) ∧
    ((UserDataMapper.InsertOrUpdate (fun _ => some (.other 7)) emptyDB 0 (goStr "u")
        0).state = emptyDB) := by
  have t := c7_error_leaves_store_unchanged (fun _ => some (.other 7)) ⟨9, goStr "sha256", []⟩
    (goStr "u", none) emptyDB 0 (goStr "u") (goStr "k") (goStr "a") (goStr "t")
    ⟨goStr "u", goStr "sha256", [], [], 0⟩ 0 (.other 7)
  exact ⟨t.1 rfl, t.2.1 rfl, t.2.2.1 rfl, t.2.2.2.1 rfl, t.2.2.2.2.1 rfl,
    t.2.2.2.2.2.1 rfl, t.2.2.2.2.2.2 rfl⟩

/-- **C4 (counterexample).** The claim asserts the existence check and the
insert are performed inside one transaction.  On a fresh store the bind
succeeds, yet its statement trace contains the check `SELECT` executed on the
shared `a.DB()` handle (sqluser.go 262), outside `tx`: not every statement of
the operation ran on the transaction. -/
theorem c4_counterexample :
    (AccountDataMapper.Bind noFail emptyDB 0 (goStr "u") (goStr "email") (goStr "a@b")).err
      = none ∧
    allStmtsInTx
      (AccountDataMapper.Bind noFail emptyDB 0 (goStr "u") (goStr "email") (goStr "a@b")).trace
      = false := by decide

/-- **C4 (amended).** `Bind` checks existence of the pair first — via a
`SELECT` executed on the shared connection, outside the transaction — and
aborts with `ErrAccountBindExists` without inserting when a matching row is
present; otherwise it inserts one row with the current timestamp on the
transaction and commits.  Bound twice with the same pair, the second call
yields `ErrAccountBindExists`, leaves the store unchanged, and exactly one
row for the pair persists. -/
theorem c4_amended (s : DBState) (now now2 : Int) (uid uid2 keyword account : Bytes)
    (hnone : findAccountRow s.accounts keyword account = none) :
    AccountDataMapper.Bind noFail s now uid keyword account =
      ⟨(), none, { s with accounts := s.accounts ++ [⟨uid, keyword, account, now⟩] },
        [⟨.hdb, .sel⟩, ⟨.htx, .ins⟩]⟩ ∧
    AccountDataMapper.Bind noFail
        (AccountDataMapper.Bind noFail s now uid keyword account).state now2 uid2 keyword
        account =
      ⟨(), some .errAccountBindExists,
        (AccountDataMapper.Bind noFail s now uid keyword account).state, [⟨.hdb, .sel⟩]⟩ ∧
    accountPairCount (AccountDataMapper.Bind noFail s now uid keyword account).state
      keyword account = 1 := by
  have h1 : AccountDataMapper.Bind noFail s now uid keyword account =
      ⟨(), none, { s with accounts := s.accounts ++ [⟨uid, keyword, account, now⟩] },
        [⟨.hdb, .sel⟩, ⟨.htx, .ins⟩]⟩ := by
    unfold AccountDataMapper.Bind noFail
    rw [hnone]
    rfl
  have hfilter : s.accounts.filter (fun r => r.Keyword == keyword && r.Account == account)
      = [] := by
    rw [List.filter_eq_nil_iff]
    intro a ha hpa
    have : s.accounts.find? (fun r => r.Keyword == keyword && r.Account == account) ≠ none := by
      intro hn
      exact absurd hpa (List.find?_eq_none.mp hn a ha)
    exact this hnone
  have hfind2 : findAccountRow (s.accounts ++ [⟨uid, keyword, account, now⟩]) keyword account
      = some ⟨uid, keyword, account, now⟩ := by
    unfold findAccountRow at hnone ⊢
    rw [List.find?_append, hnone]
    simp
  refine ⟨h1, ?_, ?_⟩
  · rw [h1]
    unfold AccountDataMapper.Bind noFail
    dsimp only
    rw [hfind2]
  · rw [h1]
    unfold accountPairCount
    dsimp only
    rw [List.filter_append, hfilter]
    simp

/-- Witness for C4 (amended) on the empty store. -/
theorem c4_witness :
    AccountDataMapper.Bind noFail emptyDB 3 (goStr "u") (goStr "email") (goStr "a@b") =
      ⟨(), none, { emptyDB with accounts := [⟨goStr "u", goStr "email", goStr "a@b", 3⟩] },
        [⟨.hdb, .sel⟩, ⟨.htx, .ins⟩]⟩ ∧
    AccountDataMapper.Bind noFail
        (AccountDataMapper.Bind noFail emptyDB 3 (goStr "u") (goStr "email")
          (goStr "a@b")).state 4 (goStr "v") (goStr "email") (goStr "a@b") =
      ⟨(), some .errAccountBindExists,
        (AccountDataMapper.Bind noFail emptyDB 3 (goStr "u") (goStr "email")
          (goStr "a@b")).state, [⟨.hdb, .sel⟩]⟩ ∧
    accountPairCount (AccountDataMapper.Bind noFail emptyDB 3 (goStr "u") (goStr "email")
      (goStr "a@b")).state (goStr "email") (goStr "a@b") = 1 :=
  c4_amended emptyDB 3 4 (goStr "u") (goStr "v") (goStr "email") (goStr "a@b") rfl

/-- **C3.** `VerifyPassword` returns `member.ErrUserNotFound` whenever no
password row exists for the uid (never conflating it with a wrong password),
and `ErrHashMethodNotFound` when the stored row it retrieves names a hash
method with no registered implementation. -/
theorem c3_verify_error_taxonomy (u : User) (s s2 : DBState) (uid uid2 p : Bytes)
    (r : PasswordModel)
    (ha : findPwdRow s.passwords uid = none)
    (hb1 : uid2 ≠ [])
    (hb2 : findPwdRow s2.passwords uid2 = some r)
    (hb3 : HashFuncMap r.HashMethod = none) :
    ((PasswordDataMapper.VerifyPassword none u s uid p).val = false ∧
     (PasswordDataMapper.VerifyPassword none u s uid p).err = some .errUserNotFound) ∧
    ((PasswordDataMapper.VerifyPassword none u s2 uid2 p).val = false ∧
     (PasswordDataMapper.VerifyPassword none u s2 uid2 p).err
        = some .errHashMethodNotFound) := by
  constructor
  · unfold PasswordDataMapper.VerifyPassword PasswordDataMapper.Find
    by_cases hue : uid = []
    · simp [hue]
    · simp [hue, ha]
  · unfold PasswordDataMapper.VerifyPassword PasswordDataMapper.Find
    simp [hb1, hb2, hb3]

/-- Witness for C3: an empty store for the missing row, and a store holding a
row whose method `"md5"` is unregistered. -/
theorem c3_witness :
    ((PasswordDataMapper.VerifyPassword none ⟨2, goStr "sha256", []⟩ emptyDB (goStr "x")
        (goStr "pw")).val = false ∧
     (PasswordDataMapper.VerifyPassword none ⟨2, goStr "sha256", []⟩ emptyDB (goStr "x")
        (goStr "pw")).err = some .errUserNotFound) ∧
    ((PasswordDataMapper.VerifyPassword none ⟨2, goStr "sha256", []⟩
        ⟨[], [⟨goStr "x", goStr "md5", goStr "s", goStr "h", 0⟩], [], []⟩ (goStr "x")
        (goStr "pw")).val = false ∧
     (PasswordDataMapper.VerifyPassword none ⟨2, goStr "sha256", []⟩
        ⟨[], [⟨goStr "x", goStr "md5", goStr "s", goStr "h", 0⟩], [], []⟩ (goStr "x")
        (goStr "pw")).err = some .errHashMethodNotFound) :=
  c3_verify_error_taxonomy ⟨2, goStr "sha256", []⟩ emptyDB
    ⟨[], [⟨goStr "x", goStr "md5", goStr "s", goStr "h", 0⟩], [], []⟩ (goStr "x") (goStr "x")
    (goStr "pw") ⟨goStr "x", goStr "md5", goStr "s", goStr "h", 0⟩ rfl (by decide) rfl rfl

/-- **C2 (counterexample).** With the empty uid, `UpdatePassword` succeeds —
inserting a password row keyed by the empty string — yet `VerifyPassword`
with the very same password returns `(false, ErrUserNotFound)`, because
`Find` short-circuits on the empty uid before ever reading the row. -/
theorem c2_counterexample :
    (PasswordDataMapper.UpdatePassword noFail ⟨2, goStr "sha256", goStr "k"⟩ (goStr "ss", none)
        emptyDB 7 [] (goStr "pw")).err = none ∧
    (PasswordDataMapper.VerifyPassword none ⟨2, goStr "sha256", goStr "k"⟩
        (PasswordDataMapper.UpdatePassword noFail ⟨2, goStr "sha256", goStr "k"⟩
          (goStr "ss", none) emptyDB 7 [] (goStr "pw")).state [] (goStr "pw")).val = false ∧
    (PasswordDataMapper.VerifyPassword none ⟨2, goStr "sha256", goStr "k"⟩
        (PasswordDataMapper.UpdatePassword noFail ⟨2, goStr "sha256", goStr "k"⟩
          (goStr "ss", none) emptyDB 7 [] (goStr "pw")).state [] (goStr "pw")).err
      = some .errUserNotFound := by decide

/-- The registered `"sha256"` strategy never reports an error. -/
theorem sha256HashEntry_snd (key salt password : Bytes) :
    (sha256HashEntry key salt password).2 = none := rfl

/-- **C2 (amended).** For every NONEMPTY uid: if `UpdatePassword(uid, p)`
succeeds, then `VerifyPassword(uid, p)` returns `(true, nil)`, and
`VerifyPassword(uid, p2)` returns `(false, nil)` for every `p2` whose salted
hash differs from `p`'s — i.e. every `p2 ≠ p` outside a SHA-256 collision
under the generated salt and facade key. -/
theorem c2_amended (ora : Oracle) (u : User) (s : DBState) (now : Int)
    (salt uid p p2 : Bytes) (hu : uid ≠ [])
    (hok : (PasswordDataMapper.UpdatePassword ora u (salt, none) s now uid p).err = none)
    (hne : (sha256HashEntry u.PasswordKey salt p2).1
        ≠ (sha256HashEntry u.PasswordKey salt p).1) :
    (PasswordDataMapper.VerifyPassword none u
        (PasswordDataMapper.UpdatePassword ora u (salt, none) s now uid p).state uid p).val
      = true ∧
    (PasswordDataMapper.VerifyPassword none u
        (PasswordDataMapper.UpdatePassword ora u (salt, none) s now uid p).state uid p).err
      = none ∧
    (PasswordDataMapper.VerifyPassword none u
        (PasswordDataMapper.UpdatePassword ora u (salt, none) s now uid p).state uid p2).val
      = false ∧
    (PasswordDataMapper.VerifyPassword none u
        (PasswordDataMapper.UpdatePassword ora u (salt, none) s now uid p).state uid p2).err
      = none := by
  by_cases hmeq : u.HashMethod = goStr "sha256"
  case neg =>
    exfalso
    have hbad : (PasswordDataMapper.UpdatePassword ora u (salt, none) s now uid p).err
        = some .errHashMethodNotFound := by
      unfold PasswordDataMapper.UpdatePassword HashFuncMap
      rw [if_neg hmeq]
    rw [hbad] at hok
    exact absurd hok (by simp)
  case pos =>
    have hupd : PasswordDataMapper.UpdatePassword ora u (salt, none) s now uid p =
        PasswordDataMapper.InsertOrUpdate ora s
          ⟨uid, u.HashMethod, salt, (sha256HashEntry u.PasswordKey salt p).1, now⟩ := by
      unfold PasswordDataMapper.UpdatePassword HashFuncMap
      rw [if_pos hmeq]
      rfl
    rw [hupd] at hok ⊢
    have hstate := pwdUpsert_state_spec ora s
      ⟨uid, u.HashMethod, salt, (sha256HashEntry u.PasswordKey salt p).1, now⟩
    rw [hok, if_pos rfl] at hstate
    rw [hstate]
    have hfind : findPwdRow
        (upsertPwdList s.passwords
          ⟨uid, u.HashMethod, salt, (sha256HashEntry u.PasswordKey salt p).1, now⟩) uid =
        some ⟨uid, u.HashMethod, salt, (sha256HashEntry u.PasswordKey salt p).1, now⟩ :=
      findPwdRow_upsertPwdList s.passwords
        ⟨uid, u.HashMethod, salt, (sha256HashEntry u.PasswordKey salt p).1, now⟩
    unfold PasswordDataMapper.VerifyPassword PasswordDataMapper.Find
    simp only [if_neg hu]
    rw [hfind]
    simp [HashFuncMap, hmeq, hne, sha256HashEntry_snd]

/-- Witness for C2 (amended) at concrete inputs with distinct passwords. -/
theorem c2_witness :
    (PasswordDataMapper.VerifyPassword none ⟨2, goStr "sha256", goStr "k"⟩
        (PasswordDataMapper.UpdatePassword noFail ⟨2, goStr "sha256", goStr "k"⟩
          (goStr "ss", none) emptyDB 7 (goStr "u1") (goStr "pw")).state (goStr "u1")
        (goStr "pw")).val = true ∧
    (PasswordDataMapper.VerifyPassword none ⟨2, goStr "sha256", goStr "k"⟩
        (PasswordDataMapper.UpdatePassword noFail ⟨2, goStr "sha256", goStr "k"⟩
          (goStr "ss", none) emptyDB 7 (goStr "u1") (goStr "pw")).state (goStr "u1")
        (goStr "pw")).err = none ∧
    (PasswordDataMapper.VerifyPassword none ⟨2, goStr "sha256", goStr "k"⟩
        (PasswordDataMapper.UpdatePassword noFail ⟨2, goStr "sha256", goStr "k"⟩
          (goStr "ss", none) emptyDB 7 (goStr "u1") (goStr "pw")).state (goStr "u1")
        (goStr "pq")).val = false ∧
    (PasswordDataMapper.VerifyPassword none ⟨2, goStr "sha256", goStr "k"⟩
        (PasswordDataMapper.UpdatePassword noFail ⟨2, goStr "sha256", goStr "k"⟩
          (goStr "ss", none) emptyDB 7 (goStr "u1") (goStr "pw")).state (goStr "u1")
        (goStr "pq")).err = none :=
  c2_amended noFail ⟨2, goStr "sha256", goStr "k"⟩ emptyDB 7 (goStr "ss") (goStr "u1")
    (goStr "pw") (goStr "pq") (by decide) (by decide) (by decide)

/-- **C6.** On a store with no row for the pair and no user row for the
generated uid: the first `FindOrInsert` returns the generated uid after
committing the account row (and, with `FlagWithUser`, the user-status row) in
one transaction; a second call with the same account returns the same uid
without writing; exactly one account row for the pair and — exactly when
`FlagWithUser` is set — one user-status row for the uid persist. -/
theorem c6_find_or_insert_idempotent (u : User) (genu genu2 : Bytes × Option Err)
    (s : DBState) (now now2 : Int) (keyword account : Bytes)
    (hnone : findAccountRow s.accounts keyword account = none)
    (husr : usrCount s genu.1 = 0) :
    (AccountDataMapper.FindOrInsert noFail u genu s now keyword account).val = genu.1 ∧
    (AccountDataMapper.FindOrInsert noFail u genu s now keyword account).err = none ∧
    (AccountDataMapper.FindOrInsert noFail u genu s now keyword account).state =
      (if u.HasFlag FlagWithUser then
        { s with accounts := s.accounts ++ [⟨genu.1, keyword, account, now⟩],
                 users := s.users ++ [⟨genu.1, now, now, UserStatusNormal⟩] }
       else { s with accounts := s.accounts ++ [⟨genu.1, keyword, account, now⟩] }) ∧
    AccountDataMapper.FindOrInsert noFail u genu2
        (AccountDataMapper.FindOrInsert noFail u genu s now keyword account).state now2
        keyword account =
      ⟨genu.1, none,
        (AccountDataMapper.FindOrInsert noFail u genu s now keyword account).state,
        [⟨.hdb, .sel⟩]⟩ ∧
    accountPairCount (AccountDataMapper.FindOrInsert noFail u genu s now keyword account).state
      keyword account = 1 ∧
    usrCount (AccountDataMapper.FindOrInsert noFail u genu s now keyword account).state genu.1
      = (if u.HasFlag FlagWithUser then 1 else 0) := by
  have hok : (AccountDataMapper.FindOrInsert noFail u genu s now keyword account).err
      = none := by
    unfold AccountDataMapper.FindOrInsert noFail
    rw [hnone]
    dsimp only
    rw [if_pos rfl]
    by_cases hf : u.HasFlag FlagWithUser = true
    · rw [if_pos hf]
    · rw [if_neg hf]
  obtain ⟨hval, hstate⟩ :=
    findOrInsert_insert_spec noFail u genu s now keyword account hnone hok
  have hfilter : s.accounts.filter (fun r => r.Keyword == keyword && r.Account == account)
      = [] := by
    rw [List.filter_eq_nil_iff]
    intro a ha hpa
    have hn : s.accounts.find? (fun r => r.Keyword == keyword && r.Account == account)
        ≠ none := by
      intro hn
      exact absurd hpa (List.find?_eq_none.mp hn a ha)
    exact hn hnone
  have hfind2 : findAccountRow (s.accounts ++ [⟨genu.1, keyword, account, now⟩]) keyword
      account = some ⟨genu.1, keyword, account, now⟩ := by
    unfold findAccountRow at hnone ⊢
    rw [List.find?_append, hnone]
    simp
  have husrnil : s.users.filter (fun r => r.UID == genu.1) = [] := by
    unfold usrCount at husr
    exact List.length_eq_zero.mp husr
  refine ⟨hval, hok, hstate, ?_, ?_, ?_⟩
  · rw [hstate]
    by_cases hf : u.HasFlag FlagWithUser = true
    · rw [if_pos hf]
      exact findOrInsert_found noFail u genu2
        { s with accounts := s.accounts ++ [⟨genu.1, keyword, account, now⟩],
                 users := s.users ++ [⟨genu.1, now, now, UserStatusNormal⟩] }
        now2 keyword account ⟨genu.1, keyword, account, now⟩ rfl rfl hfind2
    · rw [if_neg hf]
      exact findOrInsert_found noFail u genu2
        { s with accounts := s.accounts ++ [⟨genu.1, keyword, account, now⟩] }
        now2 keyword account ⟨genu.1, keyword, account, now⟩ rfl rfl hfind2
  · rw [hstate]
    unfold accountPairCount
    by_cases hf : u.HasFlag FlagWithUser = true
    · rw [if_pos hf]
      dsimp only
      rw [List.filter_append, hfilter]
      simp
    · rw [if_neg hf]
      dsimp only
      rw [List.filter_append, hfilter]
      simp
  · rw [hstate]
    unfold usrCount
    by_cases hf : u.HasFlag FlagWithUser = true
    · rw [if_pos hf, if_pos hf]
      dsimp only
      rw [List.filter_append, husrnil]
      simp
    · rw [if_neg hf, if_neg hf]
      dsimp only
      rw [husrnil]
      rfl

/-- Witness for C6 on the empty store with the user module enabled. -/
theorem c6_witness :
    (AccountDataMapper.FindOrInsert noFail ⟨9, goStr "sha256", []⟩ (goStr "u1", none) emptyDB 3
        (goStr "email") (goStr "a@b")).val = (goStr "u1", (none : Option Err)).1 ∧
    (AccountDataMapper.FindOrInsert noFail ⟨9, goStr "sha256", []⟩ (goStr "u1", none) emptyDB 3
        (goStr "email") (goStr "a@b")).err = none ∧
    (AccountDataMapper.FindOrInsert noFail ⟨9, goStr "sha256", []⟩ (goStr "u1", none) emptyDB 3
        (goStr "email") (goStr "a@b")).state =
      (if (User.mk 9 (goStr "sha256") []).HasFlag FlagWithUser then
        { emptyDB with accounts := [⟨goStr "u1", goStr "email", goStr "a@b", 3⟩],
                       users := [⟨goStr "u1", 3, 3, UserStatusNormal⟩] }
       else { emptyDB with accounts := [⟨goStr "u1", goStr "email", goStr "a@b", 3⟩] }) ∧
    AccountDataMapper.FindOrInsert noFail ⟨9, goStr "sha256", []⟩ (goStr "u2", none)
        (AccountDataMapper.FindOrInsert noFail ⟨9, goStr "sha256", []⟩ (goStr "u1", none)
          emptyDB 3 (goStr "email") (goStr "a@b")).state 4 (goStr "email") (goStr "a@b") =
      ⟨(goStr "u1", (none : Option Err)).1, none,
        (AccountDataMapper.FindOrInsert noFail ⟨9, goStr "sha256", []⟩ (goStr "u1", none)
          emptyDB 3 (goStr "email") (goStr "a@b")).state, [⟨.hdb, .sel⟩]⟩ ∧
    accountPairCount (AccountDataMapper.FindOrInsert noFail ⟨9, goStr "sha256", []⟩
        (goStr "u1", none) emptyDB 3 (goStr "email") (goStr "a@b")).state (goStr "email")
        (goStr "a@b") = 1 ∧
    usrCount (AccountDataMapper.FindOrInsert noFail ⟨9, goStr "sha256", []⟩ (goStr "u1", none)
        emptyDB 3 (goStr "email") (goStr "a@b")).state (goStr "u1", (none : Option Err)).1
      = (if (User.mk 9 (goStr "sha256") []).HasFlag FlagWithUser then 1 else 0) :=
  c6_find_or_insert_idempotent ⟨9, goStr "sha256", []⟩ (goStr "u1", none) (goStr "u2", none)
    emptyDB 3 4 (goStr "email") (goStr "a@b") rfl rfl

/-- Under the all-success oracle the password upsert reports no error. -/
theorem pwdUpsert_noFail_ok (s : DBState) (m : PasswordModel) :
    (PasswordDataMapper.InsertOrUpdate noFail s m).err = none := by
  unfold PasswordDataMapper.InsertOrUpdate noFail
  dsimp only
  split <;> rfl

/-- Under the all-success oracle the token upsert reports no error. -/
theorem tokUpsert_noFail_ok (s : DBState) (now : Int) (uid token : Bytes) :
    (TokenDataMapper.InsertOrUpdate noFail s now uid token).err = none := by
  unfold TokenDataMapper.InsertOrUpdate noFail
  dsimp only
  split <;> rfl

/-- Under the all-success oracle the user upsert reports no error. -/
theorem usrUpsert_noFail_ok (s : DBState) (now : Int) (uid : Bytes) (status : Int) :
    (UserDataMapper.InsertOrUpdate noFail s now uid status).err = none := by
  unfold UserDataMapper.InsertOrUpdate noFail
  dsimp only
  split <;> rfl

/-- One upsert call — any table, any oracle — preserves the
at-most-one-row-per-uid invariant. -/
theorem applyUpsert_preserves (s : DBState) (c : UpsertCall) (h : atMostOnePerUID s) :
    atMostOnePerUID (applyUpsert s c) := by
  cases c with
  | pwd ora m =>
    intro uid
    dsimp only [applyUpsert]
    rw [pwdUpsert_state_spec ora s m]
    by_cases he : (PasswordDataMapper.InsertOrUpdate ora s m).err = none
    · rw [if_pos he]
      exact ⟨count_upsertPwdList s.passwords m uid (h uid).1, (h uid).2.1, (h uid).2.2⟩
    · rw [if_neg he]
      exact h uid
  | tok ora now uid0 token =>
    intro uid
    dsimp only [applyUpsert]
    rw [tokUpsert_state_spec ora s now uid0 token]
    by_cases he : (TokenDataMapper.InsertOrUpdate ora s now uid0 token).err = none
    · rw [if_pos he]
      exact ⟨(h uid).1, count_upsertTokList s.tokens uid0 token now uid (h uid).2.1,
        (h uid).2.2⟩
    · rw [if_neg he]
      exact h uid
  | usr ora now uid0 status =>
    intro uid
    dsimp only [applyUpsert]
    rw [usrUpsert_state_spec ora s now uid0 status]
    by_cases he : (UserDataMapper.InsertOrUpdate ora s now uid0 status).err = none
    · rw [if_pos he]
      exact ⟨(h uid).1, (h uid).2.1,
        count_upsertUsrList s.users uid0 status now uid (h uid).2.2⟩
    · rw [if_neg he]
      exact h uid

/-- **C5.** Every upsert first attempts the `UPDATE` keyed by uid and inserts
only when zero rows were affected — under the all-success oracle each of the
three upserts leaves exactly that image — and consequently any sequence of
upsert calls, from any store with at most one row per uid, never creates a
second row for a uid in the password, token or user table. -/
theorem c5_upsert_single_row_invariant (calls : List UpsertCall) (s : DBState)
    (h : atMostOnePerUID s) (m : PasswordModel) (now : Int) (uid token : Bytes)
    (status : Int) :
    atMostOnePerUID (calls.foldl applyUpsert s) ∧
    (PasswordDataMapper.InsertOrUpdate noFail s m).state =
      { s with passwords := upsertPwdList s.passwords m } ∧
    (TokenDataMapper.InsertOrUpdate noFail s now uid token).state =
      { s with tokens := upsertTokList s.tokens uid token now } ∧
    (UserDataMapper.InsertOrUpdate noFail s now uid status).state =
      { s with users := upsertUsrList s.users uid status now } := by
  refine ⟨?_, ?_, ?_, ?_⟩
  · induction calls generalizing s with
    | nil => exact h
    | cons c rest ih =>
      rw [List.foldl_cons]
      exact ih (applyUpsert s c) (applyUpsert_preserves s c h)
  · rw [pwdUpsert_state_spec, if_pos (pwdUpsert_noFail_ok s m)]
  · rw [tokUpsert_state_spec, if_pos (tokUpsert_noFail_ok s now uid token)]
  · rw [usrUpsert_state_spec, if_pos (usrUpsert_noFail_ok s now uid status)]

/-- Witness for C5: a mixed sequence of upserts on the empty store. -/
theorem c5_witness :
    atMostOnePerUID
      ([UpsertCall.pwd noFail ⟨goStr "u", goStr "sha256", goStr "s", goStr "h", 1⟩,
        UpsertCall.tok noFail 2 (goStr "u") (goStr "t1"),
        UpsertCall.pwd noFail ⟨goStr "u", goStr "sha256", goStr "s2", goStr "h2", 3⟩,
        UpsertCall.usr noFail 4 (goStr "u") 1,
        UpsertCall.tok noFail 5 (goStr "u") (goStr "t2")].foldl applyUpsert emptyDB) ∧
    (PasswordDataMapper.InsertOrUpdate noFail emptyDB
        ⟨goStr "u", goStr "sha256", goStr "s", goStr "h", 1⟩).state =
      { emptyDB with passwords :=
          upsertPwdList emptyDB.passwords ⟨goStr "u", goStr "sha256", goStr "s", goStr "h", 1⟩ } ∧
    (TokenDataMapper.InsertOrUpdate noFail emptyDB 2 (goStr "u") (goStr "t1")).state =
      { emptyDB with tokens := upsertTokList emptyDB.tokens (goStr "u") (goStr "t1") 2 } ∧
    (UserDataMapper.InsertOrUpdate noFail emptyDB 2 (goStr "u") 1).state =
      { emptyDB with users := upsertUsrList emptyDB.users (goStr "u") 1 2 } :=
  c5_upsert_single_row_invariant
    [UpsertCall.pwd noFail ⟨goStr "u", goStr "sha256", goStr "s", goStr "h", 1⟩,
     UpsertCall.tok noFail 2 (goStr "u") (goStr "t1"),
     UpsertCall.pwd noFail ⟨goStr "u", goStr "sha256", goStr "s2", goStr "h2", 3⟩,
     UpsertCall.usr noFail 4 (goStr "u") 1,
     UpsertCall.tok noFail 5 (goStr "u") (goStr "t2")] emptyDB
    (fun _ => ⟨Nat.zero_le 1, Nat.zero_le 1, Nat.zero_le 1⟩)
    ⟨goStr "u", goStr "sha256", goStr "s", goStr "h", 1⟩ 2 (goStr "u") (goStr "t1") 1

/-- When the rows for `uid` are exactly one row carrying `tok`, the
`Tokens` bulk read maps `uid` to `tok` and nothing else. -/
theorem tokens_single_row (s2 : DBState) (uid tok : Bytes) (now : Int)
    (hf : s2.tokens.filter (fun r => r.UID == uid) = [⟨uid, tok, now⟩]) :
    (TokenDataMapper.Tokens none s2 [uid]).val = [(uid, tok)] := by
  unfold TokenDataMapper.Tokens TokenDataMapper.FindAllByUID
  dsimp only
  have hcong : s2.tokens.filter (fun r => [uid].contains r.UID) =
      s2.tokens.filter (fun r => r.UID == uid) := by
    apply List.filter_congr
    intro r _
    show ([uid].contains r.UID) = (r.UID == uid)
    by_cases h : r.UID = uid <;> simp [h]
  rw [if_neg (by simp : ¬([uid] : List Bytes).length = 0)]
  dsimp only
  rw [hcong, hf]
  simp [TokenDataMapper.mapSet]

/-- **C8.** On a store with at most one token row for `uid`, `Revoke` returns
the freshly generated token and upserts it; revoked twice with distinct
generator outputs, the two returned tokens differ, the persisted rows for
`uid` are exactly one row carrying the second token, and `Tokens([uid])` maps
`uid` to only that latest token. -/
theorem c8_revoke_rotates_token (s : DBState) (now1 now2 : Int) (uid t1 t2 : Bytes)
    (hcnt : tokCount s uid ≤ 1) (hne : t1 ≠ t2) :
    (TokenDataMapper.Revoke noFail (t1, none) s now1 uid).val = t1 ∧
    (TokenDataMapper.Revoke noFail (t1, none) s now1 uid).err = none ∧
    (TokenDataMapper.Revoke noFail (t2, none)
        (TokenDataMapper.Revoke noFail (t1, none) s now1 uid).state now2 uid).val = t2 ∧
    (TokenDataMapper.Revoke noFail (t2, none)
        (TokenDataMapper.Revoke noFail (t1, none) s now1 uid).state now2 uid).err = none ∧
    (TokenDataMapper.Revoke noFail (t1, none) s now1 uid).val ≠
      (TokenDataMapper.Revoke noFail (t2, none)
        (TokenDataMapper.Revoke noFail (t1, none) s now1 uid).state now2 uid).val ∧
    (TokenDataMapper.Revoke noFail (t2, none)
        (TokenDataMapper.Revoke noFail (t1, none) s now1 uid).state now2
        uid).state.tokens.filter (fun r => r.UID == uid) = [⟨uid, t2, now2⟩] ∧
    (TokenDataMapper.Tokens none
        (TokenDataMapper.Revoke noFail (t2, none)
          (TokenDataMapper.Revoke noFail (t1, none) s now1 uid).state now2 uid).state
        [uid]).val = [(uid, t2)] := by
  have hs1 : (TokenDataMapper.Revoke noFail (t1, none) s now1 uid).state =
      { s with tokens := upsertTokList s.tokens uid t1 now1 } := by
    show (TokenDataMapper.InsertOrUpdate noFail s now1 uid t1).state = _
    rw [tokUpsert_state_spec, if_pos (tokUpsert_noFail_ok s now1 uid t1)]
  have hcnt1 : tokCount { s with tokens := upsertTokList s.tokens uid t1 now1 } uid ≤ 1 := by
    unfold tokCount
    dsimp only
    rw [filter_upsertTokList s.tokens uid t1 now1 hcnt]
    simp
  have hs2 : (TokenDataMapper.Revoke noFail (t2, none)
      (TokenDataMapper.Revoke noFail (t1, none) s now1 uid).state now2 uid).state =
      { s with tokens := upsertTokList (upsertTokList s.tokens uid t1 now1) uid t2 now2 } := by
    show (TokenDataMapper.InsertOrUpdate noFail
      (TokenDataMapper.Revoke noFail (t1, none) s now1 uid).state now2 uid t2).state = _
    rw [tokUpsert_state_spec,
      if_pos (tokUpsert_noFail_ok (TokenDataMapper.Revoke noFail (t1, none) s now1 uid).state
        now2 uid t2), hs1]
  have hfil2 : (TokenDataMapper.Revoke noFail (t2, none)
      (TokenDataMapper.Revoke noFail (t1, none) s now1 uid).state now2
      uid).state.tokens.filter (fun r => r.UID == uid) = [⟨uid, t2, now2⟩] := by
    rw [hs2]
    dsimp only
    exact filter_upsertTokList (upsertTokList s.tokens uid t1 now1) uid t2 now2 hcnt1
  refine ⟨rfl, ?_, rfl, ?_, hne, hfil2, ?_⟩
  · exact tokUpsert_noFail_ok s now1 uid t1
  · exact tokUpsert_noFail_ok (TokenDataMapper.Revoke noFail (t1, none) s now1 uid).state
      now2 uid t2
  · exact tokens_single_row _ uid t2 now2 hfil2

/-- Witness for C8 on the empty store with two distinct generated tokens. -/
theorem c8_witness :
    (TokenDataMapper.Revoke noFail (goStr "t1", none) emptyDB 3 (goStr "u")).val = goStr "t1" ∧
    (TokenDataMapper.Revoke noFail (goStr "t1", none) emptyDB 3 (goStr "u")).err = none ∧
    (TokenDataMapper.Revoke noFail (goStr "t2", none)
        (TokenDataMapper.Revoke noFail (goStr "t1", none) emptyDB 3 (goStr "u")).state 4
        (goStr "u")).val = goStr "t2" ∧
    (TokenDataMapper.Revoke noFail (goStr "t2", none)
        (TokenDataMapper.Revoke noFail (goStr "t1", none) emptyDB 3 (goStr "u")).state 4
        (goStr "u")).err = none ∧
    (TokenDataMapper.Revoke noFail (goStr "t1", none) emptyDB 3 (goStr "u")).val ≠
      (TokenDataMapper.Revoke noFail (goStr "t2", none)
        (TokenDataMapper.Revoke noFail (goStr "t1", none) emptyDB 3 (goStr "u")).state 4
        (goStr "u")).val ∧
    (TokenDataMapper.Revoke noFail (goStr "t2", none)
        (TokenDataMapper.Revoke noFail (goStr "t1", none) emptyDB 3 (goStr "u")).state 4
        (goStr "u")).state.tokens.filter (fun r => r.UID == goStr "u")
      = [⟨goStr "u", goStr "t2", 4⟩] ∧
    (TokenDataMapper.Tokens none
        (TokenDataMapper.Revoke noFail (goStr "t2", none)
          (TokenDataMapper.Revoke noFail (goStr "t1", none) emptyDB 3 (goStr "u")).state 4
          (goStr "u")).state [goStr "u"]).val = [(goStr "u", goStr "t2")] :=
  c8_revoke_rotates_token emptyDB 3 4 (goStr "u") (goStr "t1") (goStr "t2")
    (Nat.zero_le 1) (by decide)
